import Mathlib

/-!
Verification of `elemental.h` from pycpp/utility, a port of Boost.Operators.

Each C++ operator-generating unit is modelled shallowly: the primitive
operations a unit assumes of the composing type (its `<`, `>`, compound
`op=`, prefix step, dereference, ...) are passed as Lean function arguments,
value semantics replace copy construction, and the unit's synthesized
operators become fields of a returned record (or a returned function).
Composite bundles, whose whole content is which minimal unit instantiations
they pull in, are modelled as lists of unit tags over abstract type symbols,
mirroring the base-class lists of the source.
-/

namespace Elemental

/-- Derived operators of the heterogeneous `less_than_comparable<T, U>`
(primary template).  `le` is `T <= U`, `ge` is `T >= U`; the `R` fields are
the reflected forms taking the `U` operand first: `gtR` is `U > T`, `ltR`
is `U < T`, `leR` is `U <= T`, `geR` is `U >= T`. -/
structure LtDerivedHet (T U : Type) where
  le : T → U → Bool
  ge : T → U → Bool
  gtR : U → T → Bool
  ltR : U → T → Bool
  leR : U → T → Bool
  geR : U → T → Bool

/-- `less_than_comparable<T, U>` (primary template, source lines 31-40).
The composing type supplies the primitives `bool operator<(T, U)` (`lt`)
and `bool operator>(T, U)` (`gt`); the unit synthesizes the six derived
comparisons exactly as the source writes them. -/
def less_than_comparable (T U : Type) (lt gt : T → U → Bool) : LtDerivedHet T U where
  le := fun x y => !(gt x y)
  ge := fun x y => !(lt x y)
  gtR := fun x y => lt y x
  ltR := fun x y => gt y x
  leR := fun x y => !(lt y x)
  geR := fun x y => !(gt y x)

/-- Derived operators of the homogeneous specialization
`less_than_comparable<T, T>`. -/
structure LtDerivedHom (T : Type) where
  gt : T → T → Bool
  le : T → T → Bool
  ge : T → T → Bool

/-- `less_than_comparable<T, T>` (specialization, source lines 42-48): the
three derived comparisons are written in terms of the primitive `<` only. -/
def less_than_comparable_hom (T : Type) (lt : T → T → Bool) : LtDerivedHom T where
  gt := fun x y => lt y x
  le := fun x y => !(lt y x)
  ge := fun x y => !(lt x y)

/-- The pair of operators synthesized by a heterogeneous binary-operator
generator: the forward form `T op U -> T` and the reversed form
`U op T -> T`. -/
structure BinOpHet (T U : Type) where
  fwd : T → U → T
  rev : U → T → T

/-- `PYCPP_BINARY_OPERATOR_COMMUTATIVE`, primary template (source lines
78-95): the forward form copies the left `T` operand and applies `op=` with
the right `U` operand; the reversed form copies the right `T` operand and
applies `op=` with the left `U` operand.  `opAssign` is the composing
type's compound `op=`, as a pure function on values. -/
def binary_operator_commutative (T U : Type) (opAssign : T → U → T) : BinOpHet T U where
  fwd := fun x y => let copy := x; opAssign copy y
  rev := fun x y => let copy := y; opAssign copy x

/-- `PYCPP_BINARY_OPERATOR_COMMUTATIVE`, homogeneous specialization
(source lines 97-106): only the single forward form is generated. -/
def binary_operator_commutative_hom (T : Type) (opAssign : T → T → T) : T → T → T :=
  fun x y => let copy := x; opAssign copy y

/-- `PYCPP_BINARY_OPERATOR_NON_COMMUTATIVE`, primary template (source lines
109-119): only the forward form `T op U -> T`. -/
def binary_operator_non_commutative (T U : Type) (opAssign : T → U → T) : T → U → T :=
  fun x y => let copy := x; opAssign copy y

/-- `PYCPP_BINARY_OPERATOR_NON_COMMUTATIVE`, homogeneous specialization
(source lines 121-130). -/
def binary_operator_non_commutative_hom (T : Type) (opAssign : T → T → T) : T → T → T :=
  fun x y => let copy := x; opAssign copy y

/-- The reversed unit `r<name><T, U>` (source lines 132-141): copies the
left `U` operand promoted to `T` by the converting construction `T copy(x)`
(`conv`), then applies `op=` with the right `T` operand. -/
def binary_operator_reversed (T U : Type) (conv : U → T) (opAssign : T → T → T) : U → T → T :=
  fun x y => let copy := conv x; opAssign copy y

/-- `multipliable<T, U>` (macro instantiation, source line 143). -/
def multipliable (T U : Type) (opAssign : T → U → T) : BinOpHet T U :=
  binary_operator_commutative T U opAssign

/-- `multipliable<T, T>`. -/
def multipliable_hom (T : Type) (opAssign : T → T → T) : T → T → T :=
  binary_operator_commutative_hom T opAssign

/-- `addable<T, U>` (macro instantiation, source line 144). -/
def addable (T U : Type) (opAssign : T → U → T) : BinOpHet T U :=
  binary_operator_commutative T U opAssign

/-- `addable<T, T>`. -/
def addable_hom (T : Type) (opAssign : T → T → T) : T → T → T :=
  binary_operator_commutative_hom T opAssign

/-- `subtractable<T, U>` (macro instantiation, source line 145). -/
def subtractable (T U : Type) (opAssign : T → U → T) : T → U → T :=
  binary_operator_non_commutative T U opAssign

/-- `subtractable<T, T>`. -/
def subtractable_hom (T : Type) (opAssign : T → T → T) : T → T → T :=
  binary_operator_non_commutative_hom T opAssign

/-- `dividable<T, U>` (macro instantiation, source line 146). -/
def dividable (T U : Type) (opAssign : T → U → T) : T → U → T :=
  binary_operator_non_commutative T U opAssign

/-- `dividable<T, T>`. -/
def dividable_hom (T : Type) (opAssign : T → T → T) : T → T → T :=
  binary_operator_non_commutative_hom T opAssign

/-- `xorable<T, U>` (macro instantiation, source line 148). -/
def xorable (T U : Type) (opAssign : T → U → T) : BinOpHet T U :=
  binary_operator_commutative T U opAssign

/-- `xorable<T, T>`. -/
def xorable_hom (T : Type) (opAssign : T → T → T) : T → T → T :=
  binary_operator_commutative_hom T opAssign

/-- `andable<T, U>` (macro instantiation, source line 149). -/
def andable (T U : Type) (opAssign : T → U → T) : BinOpHet T U :=
  binary_operator_commutative T U opAssign

/-- `andable<T, T>`. -/
def andable_hom (T : Type) (opAssign : T → T → T) : T → T → T :=
  binary_operator_commutative_hom T opAssign

/-- `orable<T, U>` (macro instantiation, source line 150). -/
def orable (T U : Type) (opAssign : T → U → T) : BinOpHet T U :=
  binary_operator_commutative T U opAssign

/-- `orable<T, T>`. -/
def orable_hom (T : Type) (opAssign : T → T → T) : T → T → T :=
  binary_operator_commutative_hom T opAssign

/-- `incrementable<T>` (source lines 188-197): the postfix `x++` copies
`x`, applies the composing type's own one-step operation `incr` (the
effect of its `++x` on the stored value), and returns the copy.  The
result pair is (state of `x` after the call, value `x++` returned). -/
def incrementable (T : Type) (incr : T → T) (x : T) : T × T :=
  let copy := x
  let x1 := incr x
  (x1, copy)

/-- `decrementable<T>` (source lines 199-208), symmetric to
`incrementable` with the one-step operation `decr` of the prefix `--x`. -/
def decrementable (T : Type) (decr : T → T) (x : T) : T × T :=
  let copy := x
  let x1 := decr x
  (x1, copy)

/-- `subscriptable<T, I, R>` (source lines 219-226): `self[n]` is
`*(self + n)`, with `add` the composing type's addition with the
index/distance type and `deref` its dereference. -/
def subscriptable (T I R : Type) (add : T → I → T) (deref : T → R) (self : T) (n : I) : R :=
  deref (add self n)

/-- `equivalent<T, U>` (primary template, source lines 231-238): derived
`==` is the double-negative test over the primitives `T < U` (`lt`) and
`T > U` (`gt`). -/
def equivalent (T U : Type) (lt gt : T → U → Bool) : T → U → Bool :=
  fun x y => !(lt x y) && !(gt x y)

/-- `equivalent<T, T>` (specialization, source lines 240-247): derived
`==` is `!(x < y) && !(y < x)` over the single primitive `<`. -/
def equivalent_hom (T : Type) (lt : T → T → Bool) : T → T → Bool :=
  fun x y => !(lt x y) && !(lt y x)

/-- Abstract type symbols standing for the distinct type parameters
`T`, `P` (pointer), `D` (distance), `R` (reference), `U` of the templates. -/
inductive TySym
  | sT
  | sP
  | sD
  | sR
  | sU
  deriving DecidableEq

/-- A tag naming one minimal generator-unit instantiation together with
its type arguments: one value per (unit, type-argument) pair, mirroring a
C++ class-template instantiation. -/
inductive UnitTag
  | ltComparable (a b : TySym)
  | eqComparable (a b : TySym)
  | addableTag (a b : TySym)
  | subtractableTag (a b : TySym)
  | rsubtractableTag (a b : TySym)
  | multipliableTag (a b : TySym)
  | dividableTag (a b : TySym)
  | rdividableTag (a b : TySym)
  | modableTag (a b : TySym)
  | rmodableTag (a b : TySym)
  | incrementableTag (a : TySym)
  | decrementableTag (a : TySym)
  | dereferenceableTag (a b : TySym)
  | subscriptableTag (a b c : TySym)
  deriving DecidableEq

/-- Recognizes the equality-comparable unit among unit tags. -/
def isEqualityUnit : UnitTag → Bool
  | .eqComparable _ _ => true
  | _ => false

/-- `additive<T, U>` (source lines 314-318): addable + subtractable. -/
def additive (a b : TySym) : List UnitTag :=
  [.addableTag a b, .subtractableTag a b]

/-- `additive<T, T>` (source lines 320-324). -/
def additive_hom (a : TySym) : List UnitTag :=
  [.addableTag a a, .subtractableTag a a]

/-- `totally_ordered<T, U>` (source lines 302-306): less-than-comparable +
equality-comparable. -/
def totally_ordered (a b : TySym) : List UnitTag :=
  [.ltComparable a b, .eqComparable a b]

/-- `ring_operators<T, U>` (source lines 406-411). -/
def ring_operators (a b : TySym) : List UnitTag :=
  additive a b ++ [.rsubtractableTag a b, .multipliableTag a b]

/-- `ring_operators<T, T>` (source lines 413-417). -/
def ring_operators_hom (a : TySym) : List UnitTag :=
  additive_hom a ++ [.multipliableTag a a]

/-- `euclidian_ring_operators<T, U>` (source lines 456-463), the
historical spelling. -/
def euclidian_ring_operators (a b : TySym) : List UnitTag :=
  ring_operators a b ++ [.dividableTag a b, .rdividableTag a b, .modableTag a b, .rmodableTag a b]

/-- `euclidian_ring_operators<T, T>` (source lines 465-470). -/
def euclidian_ring_operators_hom (a : TySym) : List UnitTag :=
  ring_operators_hom a ++ [.dividableTag a a, .modableTag a a]

/-- `euclidean_ring_operators<T, U>` (source lines 484-491), the corrected
spelling. -/
def euclidean_ring_operators (a b : TySym) : List UnitTag :=
  ring_operators a b ++ [.dividableTag a b, .rdividableTag a b, .modableTag a b, .rmodableTag a b]

/-- `euclidean_ring_operators<T, T>` (source lines 493-498). -/
def euclidean_ring_operators_hom (a : TySym) : List UnitTag :=
  ring_operators_hom a ++ [.dividableTag a a, .modableTag a a]

/-- `input_iteratable<T, P>` (source lines 512-517). -/
def input_iteratable (t p : TySym) : List UnitTag :=
  [.eqComparable t t, .incrementableTag t, .dereferenceableTag t p]

/-- `forward_iteratable<T, P>` (source lines 524-527): input-iteratable
with no additional units. -/
def forward_iteratable (t p : TySym) : List UnitTag :=
  input_iteratable t p

/-- `bidirectional_iteratable<T, P>` (source lines 529-533). -/
def bidirectional_iteratable (t p : TySym) : List UnitTag :=
  forward_iteratable t p ++ [.decrementableTag t]

/-- `random_access_iteratable<T, P, D, R>` (source lines 539-545):
bidirectional-iteratable + `less_than_comparable<T>` + `additive<T, D>` +
`subscriptable<T, D, R>`. -/
def random_access_iteratable (t p d r : TySym) : List UnitTag :=
  bidirectional_iteratable t p ++ [.ltComparable t t] ++ additive t d ++ [.subscriptableTag t d r]

/-- The signature of one synthesized binary operator:
`res operator op(lhs, rhs)`. -/
inductive OpSig
  | binOp (lhs rhs res : TySym)
  deriving DecidableEq

/-- Result type of a synthesized operator signature. -/
def resTy : OpSig → TySym
  | .binOp _ _ r => r

/-- Operator signatures generated by the commutative macro's primary
template (source lines 82-94): `T op(T, U)` and `T op(U, T)`. -/
def commutative_ops (t u : TySym) : List OpSig :=
  [.binOp t u t, .binOp u t t]

/-- Operator signatures generated by the commutative macro's homogeneous
specialization (source lines 97-106): the single `T op(T, T)`. -/
def commutative_ops_hom (t : TySym) : List OpSig :=
  [.binOp t t t]

/-- Concrete strict order on `Fin 2`, a sample primitive `<`. -/
def fin2lt (a b : Fin 2) : Bool := decide (a < b)

/-- Concrete sample heterogeneous primitive `<` between `Fin 2` and `Fin 3`. -/
def fin23lt (a : Fin 2) (b : Fin 3) : Bool := decide (a.val < b.val)

/-- Concrete sample heterogeneous primitive `>` between `Fin 2` and `Fin 3`. -/
def fin23gt (a : Fin 2) (b : Fin 3) : Bool := decide (b.val < a.val)

/-- Concrete strict order on `Fin 3`, a sample strict weak order. -/
def fin3lt (a b : Fin 3) : Bool := decide (a < b)

/-- Concrete converse order on `Fin 3`, the matching primitive `>`. -/
def fin3gt (a b : Fin 3) : Bool := decide (b < a)

/-- Claim C1 counterexample: in the heterogeneous `less_than_comparable<T, U>`
the derived `T <= U` is `!(x > y)`, which reads the primitive
`operator>(T, U)` the composing type must supply.  Holding the primitive `<`
fixed (constantly false) and changing only the primitive `>` changes the
derived `<=`, so the derived comparisons are not synthesized from `<`
alone and a heterogeneous composer must supply a primitive `>`. -/
theorem less_than_comparable_le_reads_primitive_gt :
    (less_than_comparable Unit Bool (fun _ _ => false) (fun _ _ => false)).le () true = true ∧
    (less_than_comparable Unit Bool (fun _ _ => false) (fun _ _ => true)).le () true = false :=
  ⟨rfl, rfl⟩

/-- Claim C1 (amended): in the homogeneous specialization every derived
comparison (`>`, `<=`, `>=`) is defined purely in terms of the primitive
`<`; in the heterogeneous case the derived `T >= U`, `U > T`, `U <= T` are
defined from the primitive `operator<(T, U)`, while `T <= U`, `U < T`,
`U >= T` are defined from the primitive `operator>(T, U)`, so a composing
type need supply only `<` exactly when the operand types coincide. -/
theorem less_than_comparable_primitive_usage (T U : Type)
    (lt gt : T → U → Bool) (ltH : T → T → Bool) (x : T) (y : U) (u : U) (t : T) (a b : T) :
    ((less_than_comparable_hom T ltH).gt a b = ltH b a ∧
     (less_than_comparable_hom T ltH).le a b = !(ltH b a) ∧
     (less_than_comparable_hom T ltH).ge a b = !(ltH a b)) ∧
    ((less_than_comparable T U lt gt).ge x y = !(lt x y) ∧
     (less_than_comparable T U lt gt).gtR u t = lt t u ∧
     (less_than_comparable T U lt gt).leR u t = !(lt t u) ∧
     (less_than_comparable T U lt gt).le x y = !(gt x y) ∧
     (less_than_comparable T U lt gt).ltR u t = gt t u ∧
     (less_than_comparable T U lt gt).geR u t = !(gt t u)) :=
  ⟨⟨rfl, rfl, rfl⟩, rfl, rfl, rfl, rfl, rfl, rfl⟩

/-- Claim C2: for the composed ordering units, whenever `x < y` holds under
the primitive `<` (assumed asymmetric for the homogeneous unit, and mutually
exclusive with the primitive `>` for the heterogeneous unit, as any genuine
ordering is), the derived `y > x`, `x <= y`, `y >= x` all hold and the
derived `x > y` and `x >= y` do not. -/
theorem less_than_comparable_order_props (T U : Type)
    (ltH : T → T → Bool) (lt gt : T → U → Bool)
    (hasym : ∀ a b, ltH a b = true → ltH b a = false)
    (hexcl : ∀ a b, lt a b = true → gt a b = false)
    (a b : T) (x : T) (y : U)
    (hab : ltH a b = true) (hxy : lt x y = true) :
    ((less_than_comparable_hom T ltH).gt b a = true ∧
     (less_than_comparable_hom T ltH).le a b = true ∧
     (less_than_comparable_hom T ltH).ge b a = true ∧
     (less_than_comparable_hom T ltH).gt a b = false ∧
     (less_than_comparable_hom T ltH).ge a b = false) ∧
    ((less_than_comparable T U lt gt).gtR y x = true ∧
     (less_than_comparable T U lt gt).le x y = true ∧
     (less_than_comparable T U lt gt).geR y x = true ∧
     (less_than_comparable T U lt gt).ge x y = false) := by
  have hba := hasym a b hab
  have hg := hexcl x y hxy
  refine ⟨⟨?_, ?_, ?_, ?_, ?_⟩, ?_, ?_, ?_, ?_⟩ <;>
    simp [less_than_comparable_hom, less_than_comparable, hab, hba, hxy, hg]

/-- Claim C2 witness: the ordering properties at the concrete orders on
`Fin 2` and between `Fin 2` and `Fin 3`, at `x = 0 < y = 1`. -/
theorem less_than_comparable_order_props_witness :
    ((less_than_comparable_hom (Fin 2) fin2lt).gt 1 0 = true ∧
     (less_than_comparable_hom (Fin 2) fin2lt).le 0 1 = true ∧
     (less_than_comparable_hom (Fin 2) fin2lt).ge 1 0 = true ∧
     (less_than_comparable_hom (Fin 2) fin2lt).gt 0 1 = false ∧
     (less_than_comparable_hom (Fin 2) fin2lt).ge 0 1 = false) ∧
    ((less_than_comparable (Fin 2) (Fin 3) fin23lt fin23gt).gtR 1 0 = true ∧
     (less_than_comparable (Fin 2) (Fin 3) fin23lt fin23gt).le 0 1 = true ∧
     (less_than_comparable (Fin 2) (Fin 3) fin23lt fin23gt).geR 1 0 = true ∧
     (less_than_comparable (Fin 2) (Fin 3) fin23lt fin23gt).ge 0 1 = false) :=
  less_than_comparable_order_props (Fin 2) (Fin 3) fin2lt fin23lt fin23gt
    (by decide) (by decide) 0 1 0 1 (by decide) (by decide)

/-- Claim C3: each commutative binary generator (addable, multipliable,
xorable, andable, orable) produces a forward form that copies the left `T`
operand and applies `op=` with the right `U` operand, and a reversed form
that copies the right `T` operand and applies `op=` with the left `U`
operand, both returning the self type `T`; the homogeneous specialization
generates only the single forward `T op(T, T)` signature. -/
theorem commutative_generator_shapes (T U : Type) (f : T → U → T) (g : T → T → T)
    (x : T) (y : U) (a b : T) :
    ((addable T U f).fwd x y = f x y ∧ (addable T U f).rev y x = f x y ∧
      addable_hom T g a b = g a b) ∧
    ((multipliable T U f).fwd x y = f x y ∧ (multipliable T U f).rev y x = f x y ∧
      multipliable_hom T g a b = g a b) ∧
    ((xorable T U f).fwd x y = f x y ∧ (xorable T U f).rev y x = f x y ∧
      xorable_hom T g a b = g a b) ∧
    ((andable T U f).fwd x y = f x y ∧ (andable T U f).rev y x = f x y ∧
      andable_hom T g a b = g a b) ∧
    ((orable T U f).fwd x y = f x y ∧ (orable T U f).rev y x = f x y ∧
      orable_hom T g a b = g a b) ∧
    ((∀ s ∈ commutative_ops .sT .sU, resTy s = .sT) ∧
      commutative_ops_hom .sT = [OpSig.binOp .sT .sT .sT]) := by
  refine ⟨⟨rfl, rfl, rfl⟩, ⟨rfl, rfl, rfl⟩, ⟨rfl, rfl, rfl⟩, ⟨rfl, rfl, rfl⟩,
    ⟨rfl, rfl, rfl⟩, by decide, rfl⟩

/-- Claim C4: the equivalence generator derives `==` as the double-negative
test (heterogeneous over the primitives `<` and `>`, homogeneous over `<`
alone), and when the homogeneous `<` is a strict weak order (irreflexive,
with the negative-transitivity property every strict weak order has) the
derived `==` is reflexive, symmetric and transitive. -/
theorem equivalent_equivalence (T U : Type) (lt gt : T → U → Bool) (ltH : T → T → Bool)
    (hirr : ∀ a, ltH a a = false)
    (hneg : ∀ a b c, ltH a c = true → ltH a b = true ∨ ltH b c = true)
    (x : T) (y : U) (a b c : T)
    (hab : equivalent_hom T ltH a b = true) (hbc : equivalent_hom T ltH b c = true) :
    equivalent T U lt gt x y = (!(lt x y) && !(gt x y)) ∧
    (∀ z w : T, equivalent_hom T ltH z w = (!(ltH z w) && !(ltH w z))) ∧
    (∀ z : T, equivalent_hom T ltH z z = true) ∧
    (∀ z w : T, equivalent_hom T ltH z w = equivalent_hom T ltH w z) ∧
    equivalent_hom T ltH a c = true := by
  simp only [equivalent_hom, Bool.and_eq_true, Bool.not_eq_true'] at hab hbc
  refine ⟨rfl, fun z w => rfl, ?_, ?_, ?_⟩
  · intro z
    simp [equivalent_hom, hirr z]
  · intro z w
    show (!(ltH z w) && !(ltH w z)) = (!(ltH w z) && !(ltH z w))
    exact Bool.and_comm _ _
  · have hac : ltH a c = false := by
      cases hval : ltH a c with
      | false => rfl
      | true =>
        rcases hneg a b c hval with h | h
        · rw [hab.1] at h; exact absurd h (by simp)
        · rw [hbc.1] at h; exact absurd h (by simp)
    have hca : ltH c a = false := by
      cases hval : ltH c a with
      | false => rfl
      | true =>
        rcases hneg c b a hval with h | h
        · rw [hbc.2] at h; exact absurd h (by simp)
        · rw [hab.2] at h; exact absurd h (by simp)
    simp [equivalent_hom, hac, hca]

/-- Claim C4 witness: the equivalence properties at the concrete strict
order on `Fin 3`, with `a = b = c = 0`. -/
theorem equivalent_equivalence_witness :
    equivalent (Fin 3) (Fin 3) fin3lt fin3gt 0 1 = (!(fin3lt 0 1) && !(fin3gt 0 1)) ∧
    (∀ z w : Fin 3, equivalent_hom (Fin 3) fin3lt z w = (!(fin3lt z w) && !(fin3lt w z))) ∧
    (∀ z : Fin 3, equivalent_hom (Fin 3) fin3lt z z = true) ∧
    (∀ z w : Fin 3, equivalent_hom (Fin 3) fin3lt z w = equivalent_hom (Fin 3) fin3lt w z) ∧
    equivalent_hom (Fin 3) fin3lt 0 0 = true :=
  equivalent_equivalence (Fin 3) (Fin 3) fin3lt fin3gt fin3lt (by decide) (by decide)
    0 1 0 0 0 (by decide) (by decide)

/-- Claim C5: over the exact integers, the operators derived from `+=`,
`-=`, `*=`, `/=` by the homogeneous additive and multiplicative
compositions satisfy `(a + b) - b = a` for all `a, b`, and
`(a * b) / b = a` for all `a` and non-zero `b`. -/
theorem arithmetic_round_trip (a b : Int) (hb : b ≠ 0) :
    subtractable_hom Int (fun u v => u - v) (addable_hom Int (fun u v => u + v) a b) b = a ∧
    dividable_hom Int (fun u v => u / v) (multipliable_hom Int (fun u v => u * v) a b) b = a := by
  constructor
  · show a + b - b = a
    omega
  · show a * b / b = a
    exact Int.mul_ediv_cancel a hb

/-- Claim C5 witness: the round trips at `a = 5`, `b = 3`. -/
theorem arithmetic_round_trip_witness :
    subtractable_hom Int (fun u v => u - v) (addable_hom Int (fun u v => u + v) 5 3) 3 = 5 ∧
    dividable_hom Int (fun u v => u / v) (multipliable_hom Int (fun u v => u * v) 5 3) 3 = 5 :=
  arithmetic_round_trip 5 3 (by decide)

/-- Claim C6: for the postfix step generators, `tmp = x++` leaves `tmp`
equal to the pre-call value of `x` and leaves `x` equal to exactly one
application of the one-step operation to its original value, and
symmetrically for `x--`. -/
theorem postfix_step_semantics (T : Type) (incr decr : T → T) (x : T) :
    (incrementable T incr x).2 = x ∧ (incrementable T incr x).1 = incr x ∧
    (decrementable T decr x).2 = x ∧ (decrementable T decr x).1 = decr x :=
  ⟨rfl, rfl, rfl, rfl⟩

/-- Claim C7: for the indexed-access generator, `self[n] = *(self + n)` for
every index `n`, where `add` is the type's addition with the distance type
and `deref` its dereference. -/
theorem subscript_is_deref_add (T I R : Type) (add : T → I → T) (deref : T → R)
    (self : T) (n : I) :
    subscriptable T I R add deref self n = deref (add self n) :=
  rfl

/-- Claim C8: the transitive unit-instantiation list of
`random_access_iteratable<T, P, D, R>` contains exactly one
equality-comparable instantiation (pulled in through the bidirectional
bundle), has no duplicated (unit, type-arguments) instantiation at all,
and adds plain `less_than_comparable<T>` directly; composing
`totally_ordered<T>` instead would have duplicated the equality unit. -/
theorem random_access_diamond_collapse :
    (random_access_iteratable .sT .sP .sD .sR).countP (fun u => isEqualityUnit u) = 1 ∧
    (random_access_iteratable .sT .sP .sD .sR).count (UnitTag.eqComparable .sT .sT) = 1 ∧
    (random_access_iteratable .sT .sP .sD .sR).Nodup ∧
    UnitTag.ltComparable .sT .sT ∈ random_access_iteratable .sT .sP .sD .sR ∧
    UnitTag.eqComparable .sT .sT ∈ bidirectional_iteratable .sT .sP ∧
    (bidirectional_iteratable .sT .sP ++ totally_ordered .sT .sT).countP
      (fun u => isEqualityUnit u) = 2 := by
  refine ⟨?_, ?_, ?_, ?_, ?_, ?_⟩ <;> decide

/-- Claim C9: the historically spelled `euclidian_ring_operators` and the
correctly spelled `euclidean_ring_operators` compose exactly the same unit
instantiations, in both the heterogeneous and the homogeneous
specialization. -/
theorem euclidian_euclidean_identical (a b c : TySym) :
    euclidian_ring_operators a b = euclidean_ring_operators a b ∧
    euclidian_ring_operators_hom c = euclidean_ring_operators_hom c :=
  ⟨rfl, rfl⟩

/-- Claim C10: the homogeneous equivalence generator's derived `==` is
symmetric for every primitive `<` whatsoever, because its defining
expression `!(x < y) && !(y < x)` is invariant under swapping operands. -/
theorem equivalent_hom_symm (T : Type) (lt : T → T → Bool) (x y : T) :
    equivalent_hom T lt x y = equivalent_hom T lt y x := by
  show (!(lt x y) && !(lt y x)) = (!(lt y x) && !(lt x y))
  exact Bool.and_comm _ _

end Elemental
